import Mathlib

/-!
# go-bloomd: direct and pooled clients

A shallow embedding of `client.go` and `pooled.go`.

The two clients only acquire a connection and delegate one command to it.
Everything they talk to (the TCP dialer, the clock, the connection
implementation, the pool, the key digest) lies outside these two files, so it
is an environment `Env` of oracles.  Every interaction with the environment is
appended to a chronological `History`; an oracle may answer differently
depending on the history so far, which covers every sequence of dial outcomes
and every behaviour of a connection.
-/

namespace Bloomd

/-! ## Data model -/

/-- Filter names (`type Filter string`). -/
abbrev Filter := String

/-- The `keys ...string` argument of the multi-key commands. -/
abbrev Keys := List String

/-- The `[]bool` result of the multi-key commands. -/
abbrev BoolVector := List Bool

/-- The `map[string]string` result of `List` and `Info`, as an association list. -/
abbrev StringMap := List (String × String)

/-- An instant (`time.Time`), in nanoseconds. -/
abbrev Time := Int

/-- The duration `time.Second`, in nanoseconds. -/
def Second : Int := 1000000000

/-- A `float64`, carried by its bit pattern; the clients only pass it through. -/
structure Float64 where
  bits : Nat
deriving DecidableEq

/-- The `float64` constant `0`. -/
def Float64.zero : Float64 := ⟨0⟩

/-- A `context.Context`: its deadline, if any, and whether it can be cancelled. -/
structure Context where
  deadline : Option Time
  cancellable : Bool
deriving DecidableEq

/-- The context `context.Background()`: no deadline, never cancelled. -/
def Context.Background : Context := ⟨none, false⟩

/-- A non-nil Go `error`: an error of the environment, or the result of `errors.Wrap`. -/
inductive GoError
  | base (msg : String)
  | wrapped (cause : GoError) (msg : String)
deriving DecidableEq

/-- The function `errors.Wrap` of `github.com/pkg/errors`: nil stays nil, any other
error is annotated with the message and keeps the original as its cause. -/
def Wrap : Option GoError → String → Option GoError
  | none, _ => none
  | some err, message => some (GoError.wrapped err message)

/-- A TCP socket (`net.Conn`), by identity. -/
structure NetConn where
  id : Nat
deriving DecidableEq

/-- The struct `connection`, built in the source as `&connection{conn}`.  A value
of the interface type `Connection` is an `Option connection`, `none` being nil. -/
structure connection where
  conn : NetConn
deriving DecidableEq

/-- What `net.Dial` returns: a socket and a nil error, or no socket and an error. -/
inductive DialResult
  | conn (c : NetConn)
  | err (e : GoError)
deriving DecidableEq

/-- One command handed to a connection, with the arguments it is handed. -/
inductive ConnCall
  | multiSet (ctx : Context) (name : Filter) (keys : Keys)
  | check (ctx : Context) (name : Filter) (key : String)
  | clear (ctx : Context) (name : Filter)
  | close (ctx : Context) (name : Filter)
  | createWithParams (ctx : Context) (name : Filter) (capacity : Int)
      (probability : Float64) (inMemory : Bool)
  | drop (ctx : Context) (name : Filter)
  | flush (ctx : Context)
  | info (ctx : Context) (name : Filter)
  | list (ctx : Context)
  | multiCheck (ctx : Context) (name : Filter) (keys : Keys)
  | set (ctx : Context) (name : Filter) (key : String)
deriving DecidableEq

/-- One interaction with the environment.  `netClose` (closing a socket) and
`poolPut` (handing a connection back to the pool) are part of the vocabulary so
that release steps can be spoken about. -/
inductive Event
  | dial (network address : String) (res : DialResult)
  | now (t : Time)
  | setReadDeadline (c : NetConn) (t : Time)
  | poolGet
  | call (c : connection) (op : ConnCall)
  | netClose (c : NetConn)
  | poolPut (c : connection)
deriving DecidableEq

/-- The chronological record of interactions, oldest first. -/
abbrev History := List Event

/-- A Go call either returns or panics (a method call on a nil interface value). -/
inductive Outcome (α : Type)
  | returned (a : α)
  | panicked
deriving DecidableEq

/-- The environment of the clients: the dialer `net.Dial`, the clock `time.Now`,
the key digest used by `hashKey`, and the methods of the `Connection`
implementation.  Each oracle sees the history of interactions so far. -/
structure Env where
  Dial : History → String → String → DialResult
  Now : History → Time
  digest : String → String
  connMultiSet : History → connection → Context → Filter → Keys →
    Option BoolVector × Option GoError
  connCheck : History → connection → Context → Filter → String → Bool × Option GoError
  connClear : History → connection → Context → Filter → Option GoError
  connClose : History → connection → Context → Filter → Option GoError
  connCreateWithParams : History → connection → Context → Filter → Int → Float64 →
    Bool → Option GoError
  connDrop : History → connection → Context → Filter → Option GoError
  connFlush : History → connection → Context → Option GoError
  connInfo : History → connection → Context → Filter → Option StringMap × Option GoError
  connList : History → connection → Context → Option StringMap × Option GoError
  connMultiCheck : History → connection → Context → Filter → Keys →
    Option BoolVector × Option GoError
  connSet : History → connection → Context → Filter → String → Bool × Option GoError

/-- The interface `Pool`, of which the pooled client uses `Get() (Connection, error)`. -/
structure Pool where
  Get : History → Option connection × Option GoError

/-- Modelled from the spec: `hashKey` is called by `pooled.go` and defined in a file
that is not among the sources.  "Keys are written verbatim unless the owning Client
has the pre-hash flag set, in which case each key is replaced by a stable
fixed-width hex digest"; the digest itself is a parameter. -/
def hashKey (digest : String → String) (hashKeys : Bool) (key : String) : String :=
  if hashKeys then digest key else key

/-! ## client.go -/

/-- The struct `client`. -/
structure client where
  hostname : String
  timeout : Int
  maxAttempts : Int
  hashKeys : Bool
deriving DecidableEq

/-- The constructor `NewClient`: the client and a nil error. -/
def NewClient (hostname : String) (hashKeys : Bool) (timeout : Int) :
    Option client × Option GoError :=
  (some { hostname := hostname, timeout := timeout, hashKeys := hashKeys, maxAttempts := 3 },
   none)

/-- The loop of `newConnection`, from the state `attempted`, `err`.  The loop runs
while `attempted < maxAttempts`; `fuel` bounds the number of iterations and
`newConnection` supplies `maxAttempts` of it, which the guard never outlasts. -/
def newConnectionLoop (env : Env) (t : client) (maxAttempts : Int) :
    Nat → Int → Option GoError → History → (Option connection × Option GoError) × History
  | 0, _, err, h => ((none, Wrap err "bloomd: unable to establish a connection"), h)
  | fuel + 1, attempted, err, h =>
    if attempted < maxAttempts then
      match env.Dial h "tcp" t.hostname with
      | DialResult.conn conn =>
        let h1 := h ++ [Event.dial "tcp" t.hostname (DialResult.conn conn)]
        let now := env.Now h1
        ((some ⟨conn⟩, none), h1 ++ [Event.now now, Event.setReadDeadline conn (now + Second)])
      | DialResult.err e =>
        newConnectionLoop env t maxAttempts fuel (attempted + 1) (some e)
          (h ++ [Event.dial "tcp" t.hostname (DialResult.err e)])
    else ((none, Wrap err "bloomd: unable to establish a connection"), h)

/-- The function `newConnection(maxAttempts)`.  Its body names `t.hostname`, so the
client `t` is a parameter here. -/
def newConnection (env : Env) (t : client) (maxAttempts : Int) (h : History) :
    (Option connection × Option GoError) × History :=
  newConnectionLoop env t maxAttempts maxAttempts.toNat 0 none h

/-! ### Operations of the direct client

Each method is `conn, err := newConnection(t.maxAttempts)`, an early return when
`err != nil`, and one delegated call `conn.X(...)`.  A method of result type
`error` returns the error alone (the source writes `return nil, err` there, whose
`nil` has no result slot); a nil `bool` result is `none`.  When `newConnection`
returns a nil connection with a nil error the delegated call panics. -/

/-- The method `client.MultiSet`: Add multi keys to the filter. -/
def client.MultiSet (t : client) (env : Env) (ctx : Context) (name : Filter) (keys : Keys)
    (h : History) : Outcome (Option BoolVector × Option GoError) × History :=
  match newConnection env t t.maxAttempts h with
  | ((_, some err), h1) => (Outcome.returned (none, some err), h1)
  | ((some conn, none), h1) =>
    (Outcome.returned (env.connMultiSet h1 conn ctx name keys),
     h1 ++ [Event.call conn (ConnCall.multiSet ctx name keys)])
  | ((none, none), h1) => (Outcome.panicked, h1)

/-- The method `client.Check`: Check if key exists in filter. -/
def client.Check (t : client) (env : Env) (ctx : Context) (name : Filter) (key : String)
    (h : History) : Outcome (Option Bool × Option GoError) × History :=
  match newConnection env t t.maxAttempts h with
  | ((_, some err), h1) => (Outcome.returned (none, some err), h1)
  | ((some conn, none), h1) =>
    (Outcome.returned
       (some (env.connCheck h1 conn ctx name key).1,
        (env.connCheck h1 conn ctx name key).2),
     h1 ++ [Event.call conn (ConnCall.check ctx name key)])
  | ((none, none), h1) => (Outcome.panicked, h1)

/-- The method `client.Clear`: Clears the filter. -/
def client.Clear (t : client) (env : Env) (ctx : Context) (name : Filter)
    (h : History) : Outcome (Option GoError) × History :=
  match newConnection env t t.maxAttempts h with
  | ((_, some err), h1) => (Outcome.returned (some err), h1)
  | ((some conn, none), h1) =>
    (Outcome.returned (env.connClear h1 conn ctx name),
     h1 ++ [Event.call conn (ConnCall.clear ctx name)])
  | ((none, none), h1) => (Outcome.panicked, h1)

/-- The method `client.Close`: Closes the filter. -/
def client.Close (t : client) (env : Env) (ctx : Context) (name : Filter)
    (h : History) : Outcome (Option GoError) × History :=
  match newConnection env t t.maxAttempts h with
  | ((_, some err), h1) => (Outcome.returned (some err), h1)
  | ((some conn, none), h1) =>
    (Outcome.returned (env.connClose h1 conn ctx name),
     h1 ++ [Event.call conn (ConnCall.close ctx name)])
  | ((none, none), h1) => (Outcome.panicked, h1)

/-- The method `client.Create`: Creates new filter. -/
def client.Create (t : client) (env : Env) (ctx : Context) (name : Filter)
    (h : History) : Outcome (Option GoError) × History :=
  match newConnection env t t.maxAttempts h with
  | ((_, some err), h1) => (Outcome.returned (some err), h1)
  | ((some conn, none), h1) =>
    (Outcome.returned (env.connCreateWithParams h1 conn ctx name 0 Float64.zero false),
     h1 ++ [Event.call conn (ConnCall.createWithParams ctx name 0 Float64.zero false)])
  | ((none, none), h1) => (Outcome.panicked, h1)

/-- The method `client.CreateWithParams`: Creates new filter with additional params. -/
def client.CreateWithParams (t : client) (env : Env)
    (ctx : Context) (name : Filter) (capacity : Int)
    (probability : Float64) (inMemory : Bool)
    (h : History) : Outcome (Option GoError) × History :=
  match newConnection env t t.maxAttempts h with
  | ((_, some err), h1) => (Outcome.returned (some err), h1)
  | ((some conn, none), h1) =>
    (Outcome.returned (env.connCreateWithParams h1 conn ctx name capacity probability inMemory),
     h1 ++ [Event.call conn (ConnCall.createWithParams ctx name capacity probability inMemory)])
  | ((none, none), h1) => (Outcome.panicked, h1)

/-- The method `client.Drop`: Permanently deletes filter. -/
def client.Drop (t : client) (env : Env) (ctx : Context) (name : Filter)
    (h : History) : Outcome (Option GoError) × History :=
  match newConnection env t t.maxAttempts h with
  | ((_, some err), h1) => (Outcome.returned (some err), h1)
  | ((some conn, none), h1) =>
    (Outcome.returned (env.connDrop h1 conn ctx name),
     h1 ++ [Event.call conn (ConnCall.drop ctx name)])
  | ((none, none), h1) => (Outcome.panicked, h1)

/-- The method `client.Flush`: Flush to disk. -/
def client.Flush (t : client) (env : Env) (ctx : Context)
    (h : History) : Outcome (Option GoError) × History :=
  match newConnection env t t.maxAttempts h with
  | ((_, some err), h1) => (Outcome.returned (some err), h1)
  | ((some conn, none), h1) =>
    (Outcome.returned (env.connFlush h1 conn ctx),
     h1 ++ [Event.call conn (ConnCall.flush ctx)])
  | ((none, none), h1) => (Outcome.panicked, h1)

/-- The method `client.Info`: Filter statistics. -/
def client.Info (t : client) (env : Env) (ctx : Context) (name : Filter)
    (h : History) : Outcome (Option StringMap × Option GoError) × History :=
  match newConnection env t t.maxAttempts h with
  | ((_, some err), h1) => (Outcome.returned (none, some err), h1)
  | ((some conn, none), h1) =>
    (Outcome.returned (env.connInfo h1 conn ctx name),
     h1 ++ [Event.call conn (ConnCall.info ctx name)])
  | ((none, none), h1) => (Outcome.panicked, h1)

/-- The method `client.List`: List filters. -/
def client.List (t : client) (env : Env) (ctx : Context)
    (h : History) : Outcome (Option StringMap × Option GoError) × History :=
  match newConnection env t t.maxAttempts h with
  | ((_, some err), h1) => (Outcome.returned (none, some err), h1)
  | ((some conn, none), h1) =>
    (Outcome.returned (env.connList h1 conn ctx),
     h1 ++ [Event.call conn (ConnCall.list ctx)])
  | ((none, none), h1) => (Outcome.panicked, h1)

/-- The method `client.MultiCheck`: Checks whether multiple keys exist in the filter. -/
def client.MultiCheck (t : client) (env : Env) (ctx : Context) (name : Filter) (keys : Keys)
    (h : History) : Outcome (Option BoolVector × Option GoError) × History :=
  match newConnection env t t.maxAttempts h with
  | ((_, some err), h1) => (Outcome.returned (none, some err), h1)
  | ((some conn, none), h1) =>
    (Outcome.returned (env.connMultiCheck h1 conn ctx name keys),
     h1 ++ [Event.call conn (ConnCall.multiCheck ctx name keys)])
  | ((none, none), h1) => (Outcome.panicked, h1)

/-- The method `client.Set`: Add new key to filter. -/
def client.Set (t : client) (env : Env) (ctx : Context) (name : Filter) (key : String)
    (h : History) : Outcome (Option Bool × Option GoError) × History :=
  match newConnection env t t.maxAttempts h with
  | ((_, some err), h1) => (Outcome.returned (some false, some err), h1)
  | ((some conn, none), h1) =>
    (Outcome.returned
       (some (env.connSet h1 conn ctx name key).1,
        (env.connSet h1 conn ctx name key).2),
     h1 ++ [Event.call conn (ConnCall.set ctx name key)])
  | ((none, none), h1) => (Outcome.panicked, h1)

/-- The method `client.Ping`: one `List` under the background context, whose error
is returned. -/
def client.Ping (t : client) (env : Env) (h : History) : Outcome (Option GoError) × History :=
  let ctx := Context.Background
  match client.List t env ctx h with
  | (Outcome.returned (_, err), h1) => (Outcome.returned err, h1)
  | (Outcome.panicked, h1) => (Outcome.panicked, h1)

/-! ## pooled.go -/

/-- The struct `pooledClient`. -/
structure pooledClient where
  pool : Pool
  hostname : String
  timeout : Int
  hashKeys : Bool

/-! ### Operations of the pooled client

Each method is `conn, err := t.pool.Get()`, an early return when `err != nil`, and
one delegated call `conn.X(...)`. -/

/-- The method `pooledClient.MultiSet`: Add multi keys to the filter. -/
def pooledClient.MultiSet (t : pooledClient) (env : Env)
    (ctx : Context) (name : Filter) (keys : Keys)
    (h : History) : Outcome (Option BoolVector × Option GoError) × History :=
  match t.pool.Get h with
  | (_, some err) => (Outcome.returned (none, some err), h ++ [Event.poolGet])
  | (some conn, none) =>
    (Outcome.returned (env.connMultiSet (h ++ [Event.poolGet]) conn ctx name keys),
     h ++ [Event.poolGet, Event.call conn (ConnCall.multiSet ctx name keys)])
  | (none, none) => (Outcome.panicked, h ++ [Event.poolGet])

/-- The method `pooledClient.Check`: Check if key exists in filter. -/
def pooledClient.Check (t : pooledClient) (env : Env) (ctx : Context) (name : Filter) (key : String)
    (h : History) : Outcome (Option Bool × Option GoError) × History :=
  match t.pool.Get h with
  | (_, some err) => (Outcome.returned (none, some err), h ++ [Event.poolGet])
  | (some conn, none) =>
    (Outcome.returned
       (some (env.connCheck (h ++ [Event.poolGet]) conn ctx name key).1,
        (env.connCheck (h ++ [Event.poolGet]) conn ctx name key).2),
     h ++ [Event.poolGet, Event.call conn (ConnCall.check ctx name key)])
  | (none, none) => (Outcome.panicked, h ++ [Event.poolGet])

/-- The method `pooledClient.Clear`: Clears the filter. -/
def pooledClient.Clear (t : pooledClient) (env : Env) (ctx : Context) (name : Filter)
    (h : History) : Outcome (Option GoError) × History :=
  match t.pool.Get h with
  | (_, some err) => (Outcome.returned (some err), h ++ [Event.poolGet])
  | (some conn, none) =>
    (Outcome.returned (env.connClear (h ++ [Event.poolGet]) conn ctx name),
     h ++ [Event.poolGet, Event.call conn (ConnCall.clear ctx name)])
  | (none, none) => (Outcome.panicked, h ++ [Event.poolGet])

/-- The method `pooledClient.Close`: Closes the filter. -/
def pooledClient.Close (t : pooledClient) (env : Env) (ctx : Context) (name : Filter)
    (h : History) : Outcome (Option GoError) × History :=
  match t.pool.Get h with
  | (_, some err) => (Outcome.returned (some err), h ++ [Event.poolGet])
  | (some conn, none) =>
    (Outcome.returned (env.connClose (h ++ [Event.poolGet]) conn ctx name),
     h ++ [Event.poolGet, Event.call conn (ConnCall.close ctx name)])
  | (none, none) => (Outcome.panicked, h ++ [Event.poolGet])

/-- The method `pooledClient.Create`: Creates new filter. -/
def pooledClient.Create (t : pooledClient) (env : Env) (ctx : Context) (name : Filter)
    (h : History) : Outcome (Option GoError) × History :=
  match t.pool.Get h with
  | (_, some err) => (Outcome.returned (some err), h ++ [Event.poolGet])
  | (some conn, none) =>
    (Outcome.returned
       (env.connCreateWithParams (h ++ [Event.poolGet]) conn ctx name 0 Float64.zero false),
     h ++ [Event.poolGet, Event.call conn
        (ConnCall.createWithParams ctx name 0 Float64.zero false)])
  | (none, none) => (Outcome.panicked, h ++ [Event.poolGet])

/-- The method `pooledClient.CreateWithParams`: Creates new filter with additional params. -/
def pooledClient.CreateWithParams (t : pooledClient) (env : Env)
    (ctx : Context) (name : Filter) (capacity : Int)
    (probability : Float64) (inMemory : Bool)
    (h : History) : Outcome (Option GoError) × History :=
  match t.pool.Get h with
  | (_, some err) => (Outcome.returned (some err), h ++ [Event.poolGet])
  | (some conn, none) =>
    (Outcome.returned
       (env.connCreateWithParams (h ++ [Event.poolGet]) conn ctx name capacity probability
          inMemory),
     h ++ [Event.poolGet, Event.call conn
        (ConnCall.createWithParams ctx name capacity probability inMemory)])
  | (none, none) => (Outcome.panicked, h ++ [Event.poolGet])

/-- The method `pooledClient.Drop`: Permanently deletes filter. -/
def pooledClient.Drop (t : pooledClient) (env : Env) (ctx : Context) (name : Filter)
    (h : History) : Outcome (Option GoError) × History :=
  match t.pool.Get h with
  | (_, some err) => (Outcome.returned (some err), h ++ [Event.poolGet])
  | (some conn, none) =>
    (Outcome.returned (env.connDrop (h ++ [Event.poolGet]) conn ctx name),
     h ++ [Event.poolGet, Event.call conn (ConnCall.drop ctx name)])
  | (none, none) => (Outcome.panicked, h ++ [Event.poolGet])

/-- The method `pooledClient.Flush`: Flush to disk. -/
def pooledClient.Flush (t : pooledClient) (env : Env) (ctx : Context)
    (h : History) : Outcome (Option GoError) × History :=
  match t.pool.Get h with
  | (_, some err) => (Outcome.returned (some err), h ++ [Event.poolGet])
  | (some conn, none) =>
    (Outcome.returned (env.connFlush (h ++ [Event.poolGet]) conn ctx),
     h ++ [Event.poolGet, Event.call conn (ConnCall.flush ctx)])
  | (none, none) => (Outcome.panicked, h ++ [Event.poolGet])

/-- The method `pooledClient.Info`: Filter statistics. -/
def pooledClient.Info (t : pooledClient) (env : Env) (ctx : Context) (name : Filter)
    (h : History) : Outcome (Option StringMap × Option GoError) × History :=
  match t.pool.Get h with
  | (_, some err) => (Outcome.returned (none, some err), h ++ [Event.poolGet])
  | (some conn, none) =>
    (Outcome.returned (env.connInfo (h ++ [Event.poolGet]) conn ctx name),
     h ++ [Event.poolGet, Event.call conn (ConnCall.info ctx name)])
  | (none, none) => (Outcome.panicked, h ++ [Event.poolGet])

/-- The method `pooledClient.List`: List filters. -/
def pooledClient.List (t : pooledClient) (env : Env) (ctx : Context)
    (h : History) : Outcome (Option StringMap × Option GoError) × History :=
  match t.pool.Get h with
  | (_, some err) => (Outcome.returned (none, some err), h ++ [Event.poolGet])
  | (some conn, none) =>
    (Outcome.returned (env.connList (h ++ [Event.poolGet]) conn ctx),
     h ++ [Event.poolGet, Event.call conn (ConnCall.list ctx)])
  | (none, none) => (Outcome.panicked, h ++ [Event.poolGet])

/-- The method `pooledClient.MultiCheck`: Checks whether multiple keys exist in the filter. -/
def pooledClient.MultiCheck (t : pooledClient) (env : Env)
    (ctx : Context) (name : Filter) (keys : Keys)
    (h : History) : Outcome (Option BoolVector × Option GoError) × History :=
  match t.pool.Get h with
  | (_, some err) => (Outcome.returned (none, some err), h ++ [Event.poolGet])
  | (some conn, none) =>
    (Outcome.returned (env.connMultiCheck (h ++ [Event.poolGet]) conn ctx name keys),
     h ++ [Event.poolGet, Event.call conn (ConnCall.multiCheck ctx name keys)])
  | (none, none) => (Outcome.panicked, h ++ [Event.poolGet])

/-- The method `pooledClient.Set`: Add new key to filter. -/
def pooledClient.Set (t : pooledClient) (env : Env) (ctx : Context) (name : Filter) (key : String)
    (h : History) : Outcome (Option Bool × Option GoError) × History :=
  match t.pool.Get h with
  | (_, some err) => (Outcome.returned (some false, some err), h ++ [Event.poolGet])
  | (some conn, none) =>
    (Outcome.returned
       (some (env.connSet (h ++ [Event.poolGet]) conn ctx name
          (hashKey env.digest t.hashKeys key)).1,
        (env.connSet (h ++ [Event.poolGet]) conn ctx name
          (hashKey env.digest t.hashKeys key)).2),
     h ++ [Event.poolGet, Event.call conn
        (ConnCall.set ctx name (hashKey env.digest t.hashKeys key))])
  | (none, none) => (Outcome.panicked, h ++ [Event.poolGet])

/-- The method `pooledClient.Ping`: one `List` under the background context, whose
error is returned. -/
def pooledClient.Ping (t : pooledClient) (env : Env) (h : History) :
    Outcome (Option GoError) × History :=
  let ctx := Context.Background
  match pooledClient.List t env ctx h with
  | (Outcome.returned (_, err), h1) => (Outcome.returned err, h1)
  | (Outcome.panicked, h1) => (Outcome.panicked, h1)

/-! ## Observations on histories -/

/-- The failed dials of `t`, one event per error, in order. -/
def failedDials (t : client) (errs : List GoError) : History :=
  errs.map (fun e => Event.dial "tcp" t.hostname (DialResult.err e))

/-- Whether an event is a call of `net.Dial`. -/
def isDial : Event → Bool
  | Event.dial _ _ _ => true
  | _ => false

/-- Whether an event is a command handed to a connection. -/
def isCall : Event → Bool
  | Event.call _ _ => true
  | _ => false

/-- Whether an event releases a connection: closes its socket or hands it back to
the pool. -/
def isRelease : Event → Bool
  | Event.netClose _ => true
  | Event.poolPut _ => true
  | _ => false

/-- Whether an event is one of the three steps of the dial phase. -/
def isDialPhase : Event → Bool
  | Event.dial _ _ _ => true
  | Event.now _ => true
  | Event.setReadDeadline _ _ => true
  | _ => false

/-- The number of dials in a history. -/
def dialCount (h : History) : Nat := h.countP isDial

/-- The number of commands handed to connections in a history. -/
def callCount (h : History) : Nat := h.countP isCall

/-- The read deadlines set in a history, with the socket each was set on. -/
def deadlinesSet : History → List (NetConn × Time)
  | [] => []
  | Event.setReadDeadline c d :: h => (c, d) :: deadlinesSet h
  | _ :: h => deadlinesSet h

/-- The variable `err` of `newConnection` after the failed dials `errs`, from `err0`. -/
def lastErr (err0 : Option GoError) (errs : List GoError) : Option GoError :=
  match errs.getLast? with
  | some e => some e
  | none => err0

/-- An operation of a client together with its arguments. -/
inductive Op
  | multiSet (ctx : Context) (name : Filter) (keys : Keys)
  | check (ctx : Context) (name : Filter) (key : String)
  | clear (ctx : Context) (name : Filter)
  | close (ctx : Context) (name : Filter)
  | create (ctx : Context) (name : Filter)
  | createWithParams (ctx : Context) (name : Filter) (capacity : Int)
      (probability : Float64) (inMemory : Bool)
  | drop (ctx : Context) (name : Filter)
  | flush (ctx : Context)
  | info (ctx : Context) (name : Filter)
  | list (ctx : Context)
  | multiCheck (ctx : Context) (name : Filter) (keys : Keys)
  | set (ctx : Context) (name : Filter) (key : String)
  | ping

/-- The history after an operation of the direct client. -/
def client.trace (t : client) (env : Env) : Op → History → History
  | Op.multiSet ctx name keys, h => (client.MultiSet t env ctx name keys h).2
  | Op.check ctx name key, h => (client.Check t env ctx name key h).2
  | Op.clear ctx name, h => (client.Clear t env ctx name h).2
  | Op.close ctx name, h => (client.Close t env ctx name h).2
  | Op.create ctx name, h => (client.Create t env ctx name h).2
  | Op.createWithParams ctx name capacity probability inMemory, h =>
    (client.CreateWithParams t env ctx name capacity probability inMemory h).2
  | Op.drop ctx name, h => (client.Drop t env ctx name h).2
  | Op.flush ctx, h => (client.Flush t env ctx h).2
  | Op.info ctx name, h => (client.Info t env ctx name h).2
  | Op.list ctx, h => (client.List t env ctx h).2
  | Op.multiCheck ctx name keys, h => (client.MultiCheck t env ctx name keys h).2
  | Op.set ctx name key, h => (client.Set t env ctx name key h).2
  | Op.ping, h => (client.Ping t env h).2

/-- The history after an operation of the pooled client. -/
def pooledClient.trace (t : pooledClient) (env : Env) : Op → History → History
  | Op.multiSet ctx name keys, h => (pooledClient.MultiSet t env ctx name keys h).2
  | Op.check ctx name key, h => (pooledClient.Check t env ctx name key h).2
  | Op.clear ctx name, h => (pooledClient.Clear t env ctx name h).2
  | Op.close ctx name, h => (pooledClient.Close t env ctx name h).2
  | Op.create ctx name, h => (pooledClient.Create t env ctx name h).2
  | Op.createWithParams ctx name capacity probability inMemory, h =>
    (pooledClient.CreateWithParams t env ctx name capacity probability inMemory h).2
  | Op.drop ctx name, h => (pooledClient.Drop t env ctx name h).2
  | Op.flush ctx, h => (pooledClient.Flush t env ctx h).2
  | Op.info ctx name, h => (pooledClient.Info t env ctx name h).2
  | Op.list ctx, h => (pooledClient.List t env ctx h).2
  | Op.multiCheck ctx name keys, h => (pooledClient.MultiCheck t env ctx name keys h).2
  | Op.set ctx name key, h => (pooledClient.Set t env ctx name key h).2
  | Op.ping, h => (pooledClient.Ping t env h).2

/-! ## A server that stores exactly the keys it is sent -/

/-- The effect of one event on the keys stored for filter `name`: `Set` and
`MultiSet` on that filter add the keys they were handed, `Drop` and `Clear` of
that filter forget them, anything else leaves them. -/
def storeStep (name : Filter) (acc : Keys) : Event → Keys
  | Event.call _ (ConnCall.set _ n key) => if n = name then acc ++ [key] else acc
  | Event.call _ (ConnCall.multiSet _ n keys) => if n = name then acc ++ keys else acc
  | Event.call _ (ConnCall.drop _ n) => if n = name then [] else acc
  | Event.call _ (ConnCall.clear _ n) => if n = name then [] else acc
  | _ => acc

/-- The keys stored for filter `name` after a history. -/
def stored (name : Filter) (h : History) : Keys := h.foldl (storeStep name) []

/-- The environment answers membership queries from exactly the keys that were
handed to its connections: no false positive, no false negative, no error. -/
def StoresExactly (env : Env) : Prop :=
  (∀ h c ctx name keys, env.connMultiCheck h c ctx name keys =
      (some (keys.map (fun k => decide (k ∈ stored name h))), none)) ∧
  (∀ h c ctx name key, env.connCheck h c ctx name key =
      (decide (key ∈ stored name h), none))

/-! ## Sample environments -/

/-- A storing server behind a dialer that always succeeds; every command
succeeds.  The digest is a parameter. -/
def storeEnv (digest : String → String) : Env where
  Dial := fun h _ _ => DialResult.conn ⟨h.length⟩
  Now := fun _ => 1700000000000000000
  digest := digest
  connMultiSet := fun _ _ _ _ keys => (some (keys.map (fun _ => true)), none)
  connCheck := fun h _ _ name key => (decide (key ∈ stored name h), none)
  connClear := fun _ _ _ _ => none
  connClose := fun _ _ _ _ => none
  connCreateWithParams := fun _ _ _ _ _ _ _ => none
  connDrop := fun _ _ _ _ => none
  connFlush := fun _ _ _ => none
  connInfo := fun _ _ _ _ => (some [], none)
  connList := fun _ _ _ => (some [], none)
  connMultiCheck := fun h _ _ name keys =>
    (some (keys.map (fun k => decide (k ∈ stored name h))), none)
  connSet := fun _ _ _ _ _ => (true, none)

/-- The storing server behind a dialer that fails twice and then succeeds. -/
def flakyEnv : Env :=
  { storeEnv id with
    Dial := fun h _ _ =>
      if dialCount h < 2 then DialResult.err (GoError.base "connection refused")
      else DialResult.conn ⟨h.length⟩ }

/-- The storing server behind a dialer that always fails, the error naming the
attempt. -/
def deadEnv : Env :=
  { storeEnv id with
    Dial := fun h _ _ => DialResult.err (GoError.base (toString (dialCount h))) }

/-- A pool that always hands out the connection on socket 7. -/
def readyPool : Pool where
  Get := fun _ => (some ⟨⟨7⟩⟩, none)

/-- The direct client of the test suite, `NewClient(hostname, false, time.Second)`. -/
def testClient : client :=
  { hostname := "localhost:8673", timeout := Second, hashKeys := false, maxAttempts := 3 }

/-! ## Further definitions used by the statements -/

/-- The dialer answered the errors `errs`, one after the other, from history `h`. -/
def DialsFail (env : Env) (t : client) (h : History) (errs : List GoError) : Prop :=
  ∀ (i : Nat) (hi : i < errs.length),
    env.Dial (h ++ failedDials t (errs.take i)) "tcp" t.hostname =
      DialResult.err (errs.get ⟨i, hi⟩)

/-- The history after a successful dial of `conn` that followed the failures `errs`. -/
def dialedHistory (env : Env) (t : client) (h : History) (errs : List GoError)
    (conn : NetConn) : History :=
  h ++ failedDials t errs ++
    [Event.dial "tcp" t.hostname (DialResult.conn conn),
     Event.now (env.Now (h ++ failedDials t errs ++
       [Event.dial "tcp" t.hostname (DialResult.conn conn)])),
     Event.setReadDeadline conn (env.Now (h ++ failedDials t errs ++
       [Event.dial "tcp" t.hostname (DialResult.conn conn)]) + Second)]

/-- A pooled client over the pool that always has a connection ready. -/
def readyPooled (hashKeys : Bool) : pooledClient :=
  { pool := readyPool, hostname := "localhost:8673", timeout := Second, hashKeys := hashKeys }

/-- A direct client with the pre-hash flag set. -/
def hashingClient : client :=
  { hostname := "localhost:8673", timeout := Second, hashKeys := true, maxAttempts := 3 }

/-- A stand-in for the key digest: eight hexadecimal digits of a rolling checksum
of the characters of the key. -/
def sampleDigest (key : String) : String :=
  let sum := key.toList.foldl (fun acc ch => (acc * 31 + ch.toNat) % 4294967296) 7
  let digits := Nat.toDigits 16 sum
  String.mk (List.replicate (8 - digits.length) (Char.ofNat 48) ++ digits)

/-- The keys of the test TestGetSetGet. -/
def testKeys : Keys := ["test-1", "test-2", "test-3", "test-4", "test-5"]

/-! # Theorems -/

/-! ## The dial phase -/

/-- Fuel beyond the number of attempts left changes nothing: the bound the loop
is given never cuts it short. -/
theorem newConnectionLoop_fuel (env : Env) (t : client) (maxAttempts : Int) :
    ∀ (fuel : Nat) (attempted : Int) (err : Option GoError) (h : History),
      (maxAttempts - attempted).toNat ≤ fuel →
      newConnectionLoop env t maxAttempts fuel attempted err h =
        newConnectionLoop env t maxAttempts (maxAttempts - attempted).toNat attempted err h := by
  intro fuel
  induction fuel with
  | zero =>
    intro attempted err h hle
    have h0 : (maxAttempts - attempted).toNat = 0 := by omega
    rw [h0]
  | succ n ih =>
    intro attempted err h hle
    by_cases hlt : attempted < maxAttempts
    · obtain ⟨k, hk⟩ : ∃ k, (maxAttempts - attempted).toNat = k + 1 :=
        ⟨(maxAttempts - attempted).toNat - 1, by omega⟩
      have hk2 : (maxAttempts - (attempted + 1)).toNat = k := by omega
      rw [hk]
      simp only [newConnectionLoop, hlt, if_true]
      cases env.Dial h "tcp" t.hostname with
      | conn c => rfl
      | err e =>
        simp only
        rw [ih (attempted + 1) (some e) _ (by omega), hk2]
    · have h0 : (maxAttempts - attempted).toNat = 0 := by omega
      rw [h0]
      simp [newConnectionLoop, hlt]

theorem failedDials_nil (t : client) : failedDials t [] = [] := rfl

theorem failedDials_cons (t : client) (e : GoError) (errs : List GoError) :
    failedDials t (e :: errs) =
      Event.dial "tcp" t.hostname (DialResult.err e) :: failedDials t errs := rfl

theorem lastErr_cons (err0 : Option GoError) (e : GoError) (errs : List GoError) :
    lastErr err0 (e :: errs) = lastErr (some e) errs := by
  cases errs with
  | nil => rfl
  | cons a l =>
    simp only [lastErr, List.getLast?_cons_cons]
    cases hl : (a :: l).getLast? with
    | none => simp at hl
    | some x => rfl

theorem DialsFail_cons (env : Env) (t : client) (h : History) (e : GoError)
    (errs : List GoError) (h0 : env.Dial h "tcp" t.hostname = DialResult.err e)
    (hr : DialsFail env t (h ++ [Event.dial "tcp" t.hostname (DialResult.err e)]) errs) :
    DialsFail env t h (e :: errs) := by
  intro i hi
  cases i with
  | zero => simpa [failedDials] using h0
  | succ j =>
    have hj : j < errs.length := by simpa using hi
    have := hr j hj
    simpa [failedDials_cons, List.append_assoc] using this

theorem newConnectionLoop_spec (env : Env) (t : client) (maxAttempts : Int) :
    ∀ (fuel : Nat) (attempted : Int) (err0 : Option GoError) (h : History),
      (fuel : Int) = maxAttempts - attempted →
      ∃ errs : List GoError, DialsFail env t h errs ∧
        ((∃ conn, errs.length < fuel ∧
            env.Dial (h ++ failedDials t errs) "tcp" t.hostname = DialResult.conn conn ∧
            newConnectionLoop env t maxAttempts fuel attempted err0 h =
              ((some ⟨conn⟩, none), dialedHistory env t h errs conn)) ∨
         (errs.length = fuel ∧
            newConnectionLoop env t maxAttempts fuel attempted err0 h =
              ((none, Wrap (lastErr err0 errs) "bloomd: unable to establish a connection"),
               h ++ failedDials t errs))) := by
  intro fuel
  induction fuel with
  | zero =>
    intro attempted err0 h _
    refine ⟨[], ?_, Or.inr ⟨rfl, ?_⟩⟩
    · intro i hi
      simp at hi
    · simp [newConnectionLoop, lastErr, failedDials]
  | succ n ih =>
    intro attempted err0 h hf
    have hlt : attempted < maxAttempts := by push_cast at hf; omega
    cases hd : env.Dial h "tcp" t.hostname with
    | conn c =>
      refine ⟨[], ?_, Or.inl ⟨c, by simp, ?_, ?_⟩⟩
      · intro i hi
        simp at hi
      · simpa [failedDials] using hd
      · simp [newConnectionLoop, hlt, hd, dialedHistory, failedDials]
    | err e =>
      have hf2 : (n : Int) = maxAttempts - (attempted + 1) := by push_cast at hf; omega
      obtain ⟨errs, hfail, hcase⟩ :=
        ih (attempted + 1) (some e) (h ++ [Event.dial "tcp" t.hostname (DialResult.err e)]) hf2
      refine ⟨e :: errs, DialsFail_cons env t h e errs hd hfail, ?_⟩
      rcases hcase with ⟨c, hlen, hdc, hres⟩ | ⟨hlen, hres⟩
      · refine Or.inl ⟨c, by simpa using hlen, ?_, ?_⟩
        · simpa [failedDials_cons, List.append_assoc] using hdc
        · simp only [newConnectionLoop, hlt, if_true, hd]
          rw [hres]
          simp [dialedHistory, failedDials_cons, List.append_assoc]
      · refine Or.inr ⟨by simpa using hlen, ?_⟩
        simp only [newConnectionLoop, hlt, if_true, hd]
        rw [hres, lastErr_cons]
        simp [failedDials_cons, List.append_assoc]

theorem newConnection_spec (env : Env) (t : client) (maxAttempts : Int) (h : History) :
    ∃ errs : List GoError, DialsFail env t h errs ∧
      ((∃ conn, errs.length < maxAttempts.toNat ∧
          env.Dial (h ++ failedDials t errs) "tcp" t.hostname = DialResult.conn conn ∧
          newConnection env t maxAttempts h =
            ((some ⟨conn⟩, none), dialedHistory env t h errs conn)) ∨
       (errs.length = maxAttempts.toNat ∧
          newConnection env t maxAttempts h =
            ((none, Wrap (lastErr none errs) "bloomd: unable to establish a connection"),
             h ++ failedDials t errs))) := by
  by_cases hm : 0 ≤ maxAttempts
  · have hf : ((maxAttempts.toNat : Nat) : Int) = maxAttempts - 0 := by
      rw [Int.toNat_of_nonneg hm]; omega
    exact newConnectionLoop_spec env t maxAttempts maxAttempts.toNat 0 none h hf
  · have h0 : maxAttempts.toNat = 0 := by omega
    refine ⟨[], ?_, Or.inr ⟨by simp [h0], ?_⟩⟩
    · intro i hi
      simp at hi
    · simp [newConnection, h0, newConnectionLoop, lastErr, failedDials]

theorem dialCount_append (h1 h2 : History) :
    dialCount (h1 ++ h2) = dialCount h1 + dialCount h2 := by
  simp [dialCount, List.countP_append]

theorem callCount_append (h1 h2 : History) :
    callCount (h1 ++ h2) = callCount h1 + callCount h2 := by
  simp [callCount, List.countP_append]

theorem dialCount_failedDials (t : client) (errs : List GoError) :
    dialCount (failedDials t errs) = errs.length := by
  induction errs with
  | nil => rfl
  | cons e l ih =>
    rw [failedDials_cons]
    simp only [dialCount] at ih ⊢
    rw [List.countP_cons, ih]
    simp [isDial]

theorem callCount_failedDials (t : client) (errs : List GoError) :
    callCount (failedDials t errs) = 0 := by
  induction errs with
  | nil => rfl
  | cons e l ih =>
    rw [failedDials_cons]
    simp only [callCount] at ih ⊢
    rw [List.countP_cons, ih]
    simp [isCall]

theorem dialCount_dialedHistory (env : Env) (t : client) (h : History)
    (errs : List GoError) (conn : NetConn) :
    dialCount (dialedHistory env t h errs conn) = dialCount h + errs.length + 1 := by
  simp only [dialedHistory, dialCount_append, dialCount_failedDials]
  simp [dialCount, isDial]

theorem callCount_dialedHistory (env : Env) (t : client) (h : History)
    (errs : List GoError) (conn : NetConn) :
    callCount (dialedHistory env t h errs conn) = callCount h := by
  simp only [dialedHistory, callCount_append, callCount_failedDials]
  simp [callCount, isCall]

/-- C1: for maxAttempts at least 1, newConnection dials until the first success, at
most maxAttempts times; the first successful dial ends the loop and its socket is
returned with a nil error; when all maxAttempts dials fail, no connection is
returned and the error is the last dial error wrapped with the message
"bloomd: unable to establish a connection". -/
theorem newConnection_dial_retry (env : Env) (t : client) (maxAttempts : Int)
    (hm : 1 ≤ maxAttempts) (h : History) :
    ∃ errs : List GoError, DialsFail env t h errs ∧
      dialCount (newConnection env t maxAttempts h).2 ≤ dialCount h + maxAttempts.toNat ∧
      ((∃ conn, (errs.length : Int) < maxAttempts ∧
          env.Dial (h ++ failedDials t errs) "tcp" t.hostname = DialResult.conn conn ∧
          newConnection env t maxAttempts h =
            ((some ⟨conn⟩, none), dialedHistory env t h errs conn) ∧
          dialCount (newConnection env t maxAttempts h).2 =
            dialCount h + errs.length + 1) ∨
       (∃ last, (errs.length : Int) = maxAttempts ∧ errs.getLast? = some last ∧
          newConnection env t maxAttempts h =
            ((none, some (GoError.wrapped last "bloomd: unable to establish a connection")),
             h ++ failedDials t errs) ∧
          dialCount (newConnection env t maxAttempts h).2 = dialCount h + errs.length)) := by
  obtain ⟨errs, hfail, hcase⟩ := newConnection_spec env t maxAttempts h
  refine ⟨errs, hfail, ?_⟩
  rcases hcase with ⟨c, hlen, hdc, hres⟩ | ⟨hlen, hres⟩
  · have hcount : dialCount (newConnection env t maxAttempts h).2 =
        dialCount h + errs.length + 1 := by
      rw [hres]; exact dialCount_dialedHistory env t h errs c
    refine ⟨by omega, Or.inl ⟨c, by omega, hdc, hres, hcount⟩⟩
  · have hcount : dialCount (newConnection env t maxAttempts h).2 =
        dialCount h + errs.length := by
      rw [hres]; simp [dialCount_append, dialCount_failedDials]
    have hne : errs ≠ [] := by
      intro hnil
      rw [hnil] at hlen
      simp at hlen
      omega
    obtain ⟨last, hlast⟩ : ∃ last, errs.getLast? = some last := by
      cases hl : errs.getLast? with
      | none => exact absurd (List.getLast?_eq_none_iff.mp hl) hne
      | some x => exact ⟨x, rfl⟩
    refine ⟨by omega, Or.inr ⟨last, by omega, hlast, ?_, hcount⟩⟩
    rw [hres]
    simp [lastErr, hlast, Wrap]

/-- C1 at a dialer that fails twice and then succeeds, with three attempts. -/
theorem newConnection_dial_retry_witness :
    (1 : Int) ≤ 3 ∧
    ∃ errs : List GoError, DialsFail flakyEnv testClient [] errs ∧
      dialCount (newConnection flakyEnv testClient 3 []).2 ≤ dialCount [] + (3 : Int).toNat ∧
      ((∃ conn, (errs.length : Int) < 3 ∧
          flakyEnv.Dial ([] ++ failedDials testClient errs) "tcp" testClient.hostname =
            DialResult.conn conn ∧
          newConnection flakyEnv testClient 3 [] =
            ((some ⟨conn⟩, none), dialedHistory flakyEnv testClient [] errs conn) ∧
          dialCount (newConnection flakyEnv testClient 3 []).2 =
            dialCount [] + errs.length + 1) ∨
       (∃ last, (errs.length : Int) = 3 ∧ errs.getLast? = some last ∧
          newConnection flakyEnv testClient 3 [] =
            ((none, some (GoError.wrapped last "bloomd: unable to establish a connection")),
             [] ++ failedDials testClient errs) ∧
          dialCount (newConnection flakyEnv testClient 3 []).2 =
            dialCount [] + errs.length)) :=
  ⟨by decide, newConnection_dial_retry flakyEnv testClient 3 (by decide) []⟩

theorem callCount_newConnection (env : Env) (t : client) (maxAttempts : Int) (h : History) :
    callCount (newConnection env t maxAttempts h).2 = callCount h := by
  obtain ⟨errs, _, hcase⟩ := newConnection_spec env t maxAttempts h
  rcases hcase with ⟨c, _, _, hres⟩ | ⟨_, hres⟩
  · rw [hres]; exact callCount_dialedHistory env t h errs c
  · rw [hres]; simp [callCount_append, callCount_failedDials]

/-- C2: the direct client never retries a command.  When the dial phase yields a
connection, each of the twelve operations hands exactly one command to it, the
corresponding one with the arguments of the caller, and returns its result and error
unchanged; when the dial phase fails, no command is handed to any connection and
the operation returns the dial-phase error with no result. -/
theorem direct_client_delegates_once (env : Env) (t : client) (h : History) :
    (∀ (conn : connection) (h1 : History),
      newConnection env t t.maxAttempts h = ((some conn, none), h1) →
      callCount h1 = callCount h ∧
      (∀ cc : ConnCall, callCount (h1 ++ [Event.call conn cc]) = callCount h + 1) ∧
      (∀ (ctx : Context) (name : Filter) (keys : Keys),
        client.MultiSet t env ctx name keys h =
          (Outcome.returned (env.connMultiSet h1 conn ctx name keys),
           h1 ++ [Event.call conn (ConnCall.multiSet ctx name keys)])) ∧
      (∀ (ctx : Context) (name : Filter) (key : String),
        client.Check t env ctx name key h =
          (Outcome.returned
             (some (env.connCheck h1 conn ctx name key).1,
              (env.connCheck h1 conn ctx name key).2),
           h1 ++ [Event.call conn (ConnCall.check ctx name key)])) ∧
      (∀ (ctx : Context) (name : Filter),
        client.Clear t env ctx name h =
          (Outcome.returned (env.connClear h1 conn ctx name),
           h1 ++ [Event.call conn (ConnCall.clear ctx name)])) ∧
      (∀ (ctx : Context) (name : Filter),
        client.Close t env ctx name h =
          (Outcome.returned (env.connClose h1 conn ctx name),
           h1 ++ [Event.call conn (ConnCall.close ctx name)])) ∧
      (∀ (ctx : Context) (name : Filter),
        client.Create t env ctx name h =
          (Outcome.returned (env.connCreateWithParams h1 conn ctx name 0 Float64.zero false),
           h1 ++ [Event.call conn (ConnCall.createWithParams ctx name 0 Float64.zero false)])) ∧
      (∀ (ctx : Context) (name : Filter) (capacity : Int) (probability : Float64)
          (inMemory : Bool),
        client.CreateWithParams t env ctx name capacity probability inMemory h =
          (Outcome.returned
             (env.connCreateWithParams h1 conn ctx name capacity probability inMemory),
           h1 ++ [Event.call conn
              (ConnCall.createWithParams ctx name capacity probability inMemory)])) ∧
      (∀ (ctx : Context) (name : Filter),
        client.Drop t env ctx name h =
          (Outcome.returned (env.connDrop h1 conn ctx name),
           h1 ++ [Event.call conn (ConnCall.drop ctx name)])) ∧
      (∀ (ctx : Context),
        client.Flush t env ctx h =
          (Outcome.returned (env.connFlush h1 conn ctx),
           h1 ++ [Event.call conn (ConnCall.flush ctx)])) ∧
      (∀ (ctx : Context) (name : Filter),
        client.Info t env ctx name h =
          (Outcome.returned (env.connInfo h1 conn ctx name),
           h1 ++ [Event.call conn (ConnCall.info ctx name)])) ∧
      (∀ (ctx : Context),
        client.List t env ctx h =
          (Outcome.returned (env.connList h1 conn ctx),
           h1 ++ [Event.call conn (ConnCall.list ctx)])) ∧
      (∀ (ctx : Context) (name : Filter) (keys : Keys),
        client.MultiCheck t env ctx name keys h =
          (Outcome.returned (env.connMultiCheck h1 conn ctx name keys),
           h1 ++ [Event.call conn (ConnCall.multiCheck ctx name keys)])) ∧
      (∀ (ctx : Context) (name : Filter) (key : String),
        client.Set t env ctx name key h =
          (Outcome.returned
             (some (env.connSet h1 conn ctx name key).1,
              (env.connSet h1 conn ctx name key).2),
           h1 ++ [Event.call conn (ConnCall.set ctx name key)]))) ∧
    (∀ (c : Option connection) (err : GoError) (h1 : History),
      newConnection env t t.maxAttempts h = ((c, some err), h1) →
      callCount h1 = callCount h ∧
      (∀ (ctx : Context) (name : Filter) (keys : Keys),
        client.MultiSet t env ctx name keys h = (Outcome.returned (none, some err), h1)) ∧
      (∀ (ctx : Context) (name : Filter) (key : String),
        client.Check t env ctx name key h = (Outcome.returned (none, some err), h1)) ∧
      (∀ (ctx : Context) (name : Filter),
        client.Clear t env ctx name h = (Outcome.returned (some err), h1)) ∧
      (∀ (ctx : Context) (name : Filter),
        client.Close t env ctx name h = (Outcome.returned (some err), h1)) ∧
      (∀ (ctx : Context) (name : Filter),
        client.Create t env ctx name h = (Outcome.returned (some err), h1)) ∧
      (∀ (ctx : Context) (name : Filter) (capacity : Int) (probability : Float64)
          (inMemory : Bool),
        client.CreateWithParams t env ctx name capacity probability inMemory h =
          (Outcome.returned (some err), h1)) ∧
      (∀ (ctx : Context) (name : Filter),
        client.Drop t env ctx name h = (Outcome.returned (some err), h1)) ∧
      (∀ (ctx : Context),
        client.Flush t env ctx h = (Outcome.returned (some err), h1)) ∧
      (∀ (ctx : Context) (name : Filter),
        client.Info t env ctx name h = (Outcome.returned (none, some err), h1)) ∧
      (∀ (ctx : Context),
        client.List t env ctx h = (Outcome.returned (none, some err), h1)) ∧
      (∀ (ctx : Context) (name : Filter) (keys : Keys),
        client.MultiCheck t env ctx name keys h = (Outcome.returned (none, some err), h1)) ∧
      (∀ (ctx : Context) (name : Filter) (key : String),
        client.Set t env ctx name key h = (Outcome.returned (some false, some err), h1))) := by
  constructor
  · intro conn h1 hnc
    have hc : callCount h1 = callCount h := by
      have := callCount_newConnection env t t.maxAttempts h
      rw [hnc] at this
      exact this
    refine ⟨hc, ?_, ?_⟩
    · intro cc
      rw [callCount_append, hc]
      simp [callCount, isCall]
    · simp [client.MultiSet, client.Check, client.Clear, client.Close, client.Create,
        client.CreateWithParams, client.Drop, client.Flush, client.Info, client.List,
        client.MultiCheck, client.Set, hnc]
  · intro c err h1 hnc
    have hc : callCount h1 = callCount h := by
      have := callCount_newConnection env t t.maxAttempts h
      rw [hnc] at this
      exact this
    refine ⟨hc, ?_⟩
    simp [client.MultiSet, client.Check, client.Clear, client.Close, client.Create,
        client.CreateWithParams, client.Drop, client.Flush, client.Info, client.List,
        client.MultiCheck, client.Set, hnc]

/-- C2 at a dialer that succeeds at once, where MultiSet hands one command to the
dialed connection, and at a dialer that always fails, where MultiSet hands over
none and returns the dial-phase error. -/
theorem direct_client_delegates_once_witness :
    (callCount (newConnection (storeEnv id) testClient testClient.maxAttempts []).2 =
        callCount [] ∧
      ∀ (ctx : Context) (name : Filter) (keys : Keys),
        client.MultiSet testClient (storeEnv id) ctx name keys [] =
          (Outcome.returned ((storeEnv id).connMultiSet
              (newConnection (storeEnv id) testClient testClient.maxAttempts []).2
              ⟨⟨0⟩⟩ ctx name keys),
           (newConnection (storeEnv id) testClient testClient.maxAttempts []).2 ++
             [Event.call ⟨⟨0⟩⟩ (ConnCall.multiSet ctx name keys)])) ∧
    (callCount (newConnection deadEnv testClient testClient.maxAttempts []).2 =
        callCount [] ∧
      ∀ (ctx : Context) (name : Filter) (keys : Keys),
        client.MultiSet testClient deadEnv ctx name keys [] =
          (Outcome.returned (none, some (GoError.wrapped (GoError.base "2")
              "bloomd: unable to establish a connection")),
           (newConnection deadEnv testClient testClient.maxAttempts []).2)) :=
  ⟨⟨((direct_client_delegates_once (storeEnv id) testClient []).1 ⟨⟨0⟩⟩
        (newConnection (storeEnv id) testClient testClient.maxAttempts []).2 rfl).1,
    ((direct_client_delegates_once (storeEnv id) testClient []).1 ⟨⟨0⟩⟩
        (newConnection (storeEnv id) testClient testClient.maxAttempts []).2 rfl).2.2.1⟩,
   ⟨((direct_client_delegates_once deadEnv testClient []).2 none
        (GoError.wrapped (GoError.base "2") "bloomd: unable to establish a connection")
        (newConnection deadEnv testClient testClient.maxAttempts []).2 rfl).1,
    ((direct_client_delegates_once deadEnv testClient []).2 none
        (GoError.wrapped (GoError.base "2") "bloomd: unable to establish a connection")
        (newConnection deadEnv testClient testClient.maxAttempts []).2 rfl).2.1⟩⟩

/-! ## Shape of the histories -/

theorem isDialPhase_failedDials (t : client) (errs : List GoError) :
    ∀ e ∈ failedDials t errs, isDialPhase e = true := by
  intro e he
  simp only [failedDials, List.mem_map] at he
  obtain ⟨x, _, rfl⟩ := he
  rfl

theorem newConnection_appends (env : Env) (t : client) (maxAttempts : Int) (h : History) :
    ∃ dialing, (newConnection env t maxAttempts h).2 = h ++ dialing ∧
      ∀ e ∈ dialing, isDialPhase e = true := by
  obtain ⟨errs, _, hcase⟩ := newConnection_spec env t maxAttempts h
  rcases hcase with ⟨c, _, _, hres⟩ | ⟨_, hres⟩
  · refine ⟨failedDials t errs ++
      [Event.dial "tcp" t.hostname (DialResult.conn c),
       Event.now (env.Now (h ++ failedDials t errs ++
         [Event.dial "tcp" t.hostname (DialResult.conn c)])),
       Event.setReadDeadline c (env.Now (h ++ failedDials t errs ++
         [Event.dial "tcp" t.hostname (DialResult.conn c)]) + Second)], ?_, ?_⟩
    · rw [hres]; simp [dialedHistory, List.append_assoc]
    · intro e he
      rcases List.mem_append.mp he with he | he
      · exact isDialPhase_failedDials t errs e he
      · simp at he
        rcases he with rfl | rfl | rfl <;> rfl
  · exact ⟨failedDials t errs, by rw [hres], isDialPhase_failedDials t errs⟩

theorem client_trace_shape (env : Env) (t : client) (op : Op) (h : History) :
    ∃ tail, client.trace t env op h = (newConnection env t t.maxAttempts h).2 ++ tail ∧
      (tail = [] ∨ ∃ c cc, (newConnection env t t.maxAttempts h).1 = (some c, none) ∧
        tail = [Event.call c cc]) := by
  rcases hnc : newConnection env t t.maxAttempts h with ⟨⟨c, e⟩, h1⟩
  cases e with
  | some err =>
    refine ⟨[], ?_, Or.inl rfl⟩
    cases op <;> simp [client.trace, client.Ping, client.MultiSet, client.Check, client.Clear,
        client.Close, client.Create, client.CreateWithParams, client.Drop, client.Flush,
        client.Info, client.List, client.MultiCheck, client.Set, hnc]
  | none =>
    cases c with
    | none =>
      refine ⟨[], ?_, Or.inl rfl⟩
      cases op <;> simp [client.trace, client.Ping, client.MultiSet, client.Check,
          client.Clear, client.Close, client.Create, client.CreateWithParams, client.Drop,
          client.Flush, client.Info, client.List, client.MultiCheck, client.Set, hnc]
    | some conn =>
      cases op <;>
        exact ⟨_, by simp only [client.trace, client.Ping, client.MultiSet, client.Check,
            client.Clear, client.Close, client.Create, client.CreateWithParams, client.Drop,
            client.Flush, client.Info, client.List, client.MultiCheck, client.Set, hnc]; rfl,
          Or.inr ⟨conn, _, rfl, rfl⟩⟩

theorem pooledClient_trace_shape (env : Env) (p : pooledClient) (op : Op) (h : History) :
    ∃ tail, pooledClient.trace p env op h = h ++ Event.poolGet :: tail ∧
      (tail = [] ∨ ∃ c cc, (p.pool.Get h) = (some c, none) ∧ tail = [Event.call c cc]) := by
  rcases hg : p.pool.Get h with ⟨c, e⟩
  cases e with
  | some err =>
    refine ⟨[], ?_, Or.inl rfl⟩
    cases op <;> simp [pooledClient.trace, pooledClient.Ping, pooledClient.MultiSet,
        pooledClient.Check, pooledClient.Clear, pooledClient.Close, pooledClient.Create,
        pooledClient.CreateWithParams, pooledClient.Drop, pooledClient.Flush,
        pooledClient.Info, pooledClient.List, pooledClient.MultiCheck, pooledClient.Set, hg]
  | none =>
    cases c with
    | none =>
      refine ⟨[], ?_, Or.inl rfl⟩
      cases op <;> simp [pooledClient.trace, pooledClient.Ping, pooledClient.MultiSet,
          pooledClient.Check, pooledClient.Clear, pooledClient.Close, pooledClient.Create,
          pooledClient.CreateWithParams, pooledClient.Drop, pooledClient.Flush,
          pooledClient.Info, pooledClient.List, pooledClient.MultiCheck, pooledClient.Set, hg]
    | some conn =>
      cases op <;>
        exact ⟨_, by simp only [pooledClient.trace, pooledClient.Ping, pooledClient.MultiSet,
            pooledClient.Check, pooledClient.Clear, pooledClient.Close, pooledClient.Create,
            pooledClient.CreateWithParams, pooledClient.Drop, pooledClient.Flush,
            pooledClient.Info, pooledClient.List, pooledClient.MultiCheck, pooledClient.Set,
                      hg]; rfl,
          Or.inr ⟨conn, _, rfl, rfl⟩⟩

theorem isRelease_of_isDialPhase (e : Event) (he : isDialPhase e = true) :
    isRelease e = false := by
  cases e <;> simp_all [isDialPhase, isRelease]

theorem deadlinesSet_append (h1 h2 : History) :
    deadlinesSet (h1 ++ h2) = deadlinesSet h1 ++ deadlinesSet h2 := by
  induction h1 with
  | nil => rfl
  | cons e l ih => cases e <;> simp [deadlinesSet, ih]

theorem deadlinesSet_failedDials (t : client) (errs : List GoError) :
    deadlinesSet (failedDials t errs) = [] := by
  induction errs with
  | nil => rfl
  | cons e l ih => simpa [failedDials_cons, deadlinesSet] using ih

theorem dialCount_newConnection (env : Env) (t : client) (maxAttempts : Int) (h : History) :
    dialCount (newConnection env t maxAttempts h).2 ≤ dialCount h + maxAttempts.toNat := by
  obtain ⟨errs, _, hcase⟩ := newConnection_spec env t maxAttempts h
  rcases hcase with ⟨c, hlen, _, hres⟩ | ⟨hlen, hres⟩
  · rw [hres, dialCount_dialedHistory]; omega
  · rw [hres, dialCount_append, dialCount_failedDials]; omega

/-- C6 (amended): no operation of either client contains a release step.  An
operation of the direct client appends the events of its dial phase and at most
one command; an operation of the pooled client appends one pool Get and at most
one command; none of the appended events closes a socket or hands a connection
back to the pool. -/
theorem operations_never_release (env : Env) (t : client) (p : pooledClient) (op : Op)
    (h : History) :
    (∃ dialing tail, client.trace t env op h = h ++ dialing ++ tail ∧
      (∀ e ∈ dialing, isDialPhase e = true) ∧
      (tail = [] ∨ ∃ c cc, tail = [Event.call c cc]) ∧
      ∀ e ∈ dialing ++ tail, isRelease e = false) ∧
    (∃ tail, pooledClient.trace p env op h = h ++ Event.poolGet :: tail ∧
      (tail = [] ∨ ∃ c cc, tail = [Event.call c cc]) ∧
      ∀ e ∈ Event.poolGet :: tail, isRelease e = false) := by
  constructor
  · obtain ⟨dialing, hd, hphase⟩ := newConnection_appends env t t.maxAttempts h
    obtain ⟨tail, ht, hshape⟩ := client_trace_shape env t op h
    have hshape2 : tail = [] ∨ ∃ c cc, tail = [Event.call c cc] := by
      rcases hshape with h0 | ⟨c, cc, _, h1⟩
      · exact Or.inl h0
      · exact Or.inr ⟨c, cc, h1⟩
    refine ⟨dialing, tail, by rw [ht, hd], hphase, hshape2, ?_⟩
    intro e he
    rcases List.mem_append.mp he with he | he
    · exact isRelease_of_isDialPhase e (hphase e he)
    · rcases hshape2 with h0 | ⟨c, cc, h1⟩
      · rw [h0] at he; simp at he
      · rw [h1] at he
        simp at he
        rw [he]; rfl
  · obtain ⟨tail, ht, hshape⟩ := pooledClient_trace_shape env p op h
    have hshape2 : tail = [] ∨ ∃ c cc, tail = [Event.call c cc] := by
      rcases hshape with h0 | ⟨c, cc, _, h1⟩
      · exact Or.inl h0
      · exact Or.inr ⟨c, cc, h1⟩
    refine ⟨tail, ht, hshape2, ?_⟩
    intro e he
    rcases List.mem_cons.mp he with he | he
    · rw [he]; rfl
    · rcases hshape2 with h0 | ⟨c, cc, h1⟩
      · rw [h0] at he; simp at he
      · rw [h1] at he
        simp at he
        rw [he]; rfl

/-- C6 fails as stated: a successful List of the direct client leaves the socket it
dialed unclosed, and a successful List of the pooled client does not hand the
connection it borrowed back to the pool. -/
theorem release_counterexample :
    (client.List testClient (storeEnv id) Context.Background []).1 =
        Outcome.returned (some [], none) ∧
      Event.netClose ⟨0⟩ ∉ (client.List testClient (storeEnv id) Context.Background []).2 ∧
      Event.call ⟨⟨0⟩⟩ (ConnCall.list Context.Background) ∈
        (client.List testClient (storeEnv id) Context.Background []).2 ∧
    (pooledClient.List (readyPooled false) (storeEnv id) Context.Background []).1 =
        Outcome.returned (some [], none) ∧
      Event.poolPut ⟨⟨7⟩⟩ ∉
        (pooledClient.List (readyPooled false) (storeEnv id) Context.Background []).2 ∧
      Event.call ⟨⟨7⟩⟩ (ConnCall.list Context.Background) ∈
        (pooledClient.List (readyPooled false) (storeEnv id) Context.Background []).2 := by
  decide

/-- C7: in both clients Create returns what CreateWithParams returns for capacity
0, probability 0 and in_memory false, and leaves the same history, hence hands
the same command to the same connection. -/
theorem Create_eq_CreateWithParams_defaults (env : Env) (t : client) (p : pooledClient)
    (ctx : Context) (name : Filter) (h : History) :
    client.Create t env ctx name h =
        client.CreateWithParams t env ctx name 0 Float64.zero false h ∧
    pooledClient.Create p env ctx name h =
        pooledClient.CreateWithParams p env ctx name 0 Float64.zero false h :=
  ⟨rfl, rfl⟩

/-- C8: in both clients Ping leaves exactly the history of one List under the
background context, returns the error of that List and nothing of its map, and
panics exactly when that List panics. -/
theorem Ping_is_one_List (env : Env) (t : client) (p : pooledClient) (h : History) :
    (client.Ping t env h).2 = (client.List t env Context.Background h).2 ∧
    (client.Ping t env h).1 =
      (match (client.List t env Context.Background h).1 with
       | Outcome.returned r => Outcome.returned r.2
       | Outcome.panicked => Outcome.panicked) ∧
    (pooledClient.Ping p env h).2 = (pooledClient.List p env Context.Background h).2 ∧
    (pooledClient.Ping p env h).1 =
      (match (pooledClient.List p env Context.Background h).1 with
       | Outcome.returned r => Outcome.returned r.2
       | Outcome.panicked => Outcome.panicked) ∧
    Context.Background.deadline = none ∧ Context.Background.cancellable = false := by
  refine ⟨?_, ?_, ?_, ?_, rfl, rfl⟩
  · simp only [client.Ping]
    rcases client.List t env Context.Background h with ⟨r | _, h1⟩ <;> rfl
  · simp only [client.Ping]
    rcases client.List t env Context.Background h with ⟨r | _, h1⟩ <;> rfl
  · simp only [pooledClient.Ping]
    rcases pooledClient.List p env Context.Background h with ⟨r | _, h1⟩ <;> rfl
  · simp only [pooledClient.Ping]
    rcases pooledClient.List p env Context.Background h with ⟨r | _, h1⟩ <;> rfl

/-- C9: NewClient returns a nil error and a client holding exactly the given
hostname, pre-hash flag and timeout, with max-attempts 3; every operation of that
client performs at most 3 dials. -/
theorem NewClient_three_attempts (hostname : String) (hashKeys : Bool) (timeout : Int) :
    NewClient hostname hashKeys timeout =
      (some { hostname := hostname, timeout := timeout, maxAttempts := 3,
              hashKeys := hashKeys }, none) ∧
    ∀ (env : Env) (op : Op) (h : History),
      dialCount (client.trace { hostname := hostname, timeout := timeout, maxAttempts := 3,
                                hashKeys := hashKeys } env op h) ≤ dialCount h + 3 := by
  refine ⟨rfl, ?_⟩
  intro env op h
  obtain ⟨tail, ht, hshape⟩ := client_trace_shape env
    { hostname := hostname, timeout := timeout, maxAttempts := 3, hashKeys := hashKeys } op h
  have hd := dialCount_newConnection env
    { hostname := hostname, timeout := timeout, maxAttempts := 3, hashKeys := hashKeys } 3 h
  have htail : dialCount tail = 0 := by
    rcases hshape with h0 | ⟨c, cc, _, h1⟩
    · rw [h0]; rfl
    · rw [h1]; rfl
  rw [ht, dialCount_append, htail]
  simpa using hd

/-- C10: whatever the timeout of the client and the context of the call, an
operation whose dial phase yields a connection reads the clock once, right after
the successful dial, and sets exactly one read deadline, on the dialed socket, at
that reading plus one second. -/
theorem read_deadline_is_one_second (env : Env) (t : client) (op : Op) (h : History)
    (conn : connection) (h1 : History)
    (hnc : newConnection env t t.maxAttempts h = ((some conn, none), h1)) :
    ∃ pre tail,
      client.trace t env op h =
        pre ++ [Event.now (env.Now pre),
                Event.setReadDeadline conn.conn (env.Now pre + Second)] ++ tail ∧
      deadlinesSet (client.trace t env op h) =
        deadlinesSet h ++ [(conn.conn, env.Now pre + Second)] := by
  obtain ⟨errs, _, hcase⟩ := newConnection_spec env t t.maxAttempts h
  obtain ⟨tail, ht, hshape⟩ := client_trace_shape env t op h
  have htail : deadlinesSet tail = [] := by
    rcases hshape with h0 | ⟨c, cc, _, h2⟩
    · rw [h0]; rfl
    · rw [h2]; rfl
  rcases hcase with ⟨c, _, _, hres⟩ | ⟨_, hres⟩
  · rw [hres] at hnc
    have hc : conn = ⟨c⟩ := by
      have := congrArg (fun r => r.1.1) hnc
      simpa using this.symm
    refine ⟨h ++ failedDials t errs ++ [Event.dial "tcp" t.hostname (DialResult.conn c)],
      tail, ?_, ?_⟩
    · rw [ht, hres, hc]
      simp [dialedHistory, List.append_assoc]
    · rw [ht, hres, hc, deadlinesSet_append, htail]
      simp [dialedHistory, deadlinesSet_append, deadlinesSet_failedDials, deadlinesSet]
  · rw [hres] at hnc
    have := congrArg (fun r => r.1.1) hnc
    simp at this

/-- C10 at two clients that differ in their timeout and two contexts that differ
in their deadline: the same deadline is set. -/
theorem read_deadline_is_one_second_witness :
    (∃ pre tail,
      client.trace testClient (storeEnv id)
          (Op.check ⟨some 5, true⟩ "test_filter" "test-1") [] =
        pre ++ [Event.now ((storeEnv id).Now pre),
                Event.setReadDeadline (⟨⟨0⟩⟩ : connection).conn
                  ((storeEnv id).Now pre + Second)] ++ tail ∧
      deadlinesSet (client.trace testClient (storeEnv id)
          (Op.check ⟨some 5, true⟩ "test_filter" "test-1") []) =
        deadlinesSet [] ++
          [((⟨⟨0⟩⟩ : connection).conn, (storeEnv id).Now pre + Second)]) ∧
    deadlinesSet (client.trace testClient (storeEnv id)
        (Op.check ⟨some 5, true⟩ "test_filter" "test-1") []) =
      [(⟨0⟩, 1700000001000000000)] ∧
    deadlinesSet (client.trace { testClient with timeout := 30 * Second } (storeEnv id)
        (Op.check Context.Background "test_filter" "test-1") []) =
      [(⟨0⟩, 1700000001000000000)] :=
  ⟨read_deadline_is_one_second (storeEnv id) testClient
      (Op.check ⟨some 5, true⟩ "test_filter" "test-1") [] ⟨⟨0⟩⟩
      (newConnection (storeEnv id) testClient testClient.maxAttempts []).2 rfl,
   by decide, by decide⟩

theorem stored_append_singleton (name : Filter) (h : History) (e : Event) :
    stored name (h ++ [e]) = storeStep name (stored name h) e := by
  simp [stored, List.foldl_append]

theorem foldl_storeStep_of_not_call (name : Filter) (new : History)
    (hno : ∀ e ∈ new, isCall e = false) (acc : Keys) :
    new.foldl (storeStep name) acc = acc := by
  induction new generalizing acc with
  | nil => rfl
  | cons e l ih =>
    have he : isCall e = false := hno e (List.mem_cons_self e l)
    have hstep : storeStep name acc e = acc := by
      cases e <;> simp_all [isCall, storeStep]
    rw [List.foldl_cons, hstep]
    exact ih (fun x hx => hno x (List.mem_cons_of_mem e hx)) acc

theorem stored_newConnection (env : Env) (t : client) (maxAttempts : Int) (h : History)
    (name : Filter) :
    stored name (newConnection env t maxAttempts h).2 = stored name h := by
  obtain ⟨dialing, hd, hphase⟩ := newConnection_appends env t maxAttempts h
  rw [hd]
  simp only [stored, List.foldl_append]
  apply foldl_storeStep_of_not_call
  intro e he
  have := hphase e he
  cases e <;> simp_all [isDialPhase, isCall]

theorem storeEnv_StoresExactly (digest : String → String) : StoresExactly (storeEnv digest) :=
  ⟨fun _ _ _ _ _ => rfl, fun _ _ _ _ _ => rfl⟩

/-- C4: against an environment that stores exactly the keys handed to its
connections, with no key of K stored for f beforehand: when Create(f),
MultiCheck(f, K), MultiSet(f, S) and MultiCheck(f, K) of the direct client are
called in this order and each returns a nil error, the first MultiCheck returns
|K| times false and the second returns, position by position, whether the key of
K is in S.  This holds for every S, in particular for the sub-lists of K. -/
theorem set_then_check (env : Env) (hs : StoresExactly env) (t : client) (ctx : Context)
    (f : Filter) (K S : Keys) (h0 h1 h2 h3 h4 : History) (r1 r2 r3 : Option BoolVector)
    (hfresh : ∀ k ∈ K, k ∉ stored f h0)
    (hcreate : client.Create t env ctx f h0 = (Outcome.returned none, h1))
    (hcheck1 : client.MultiCheck t env ctx f K h1 = (Outcome.returned (r1, none), h2))
    (hset : client.MultiSet t env ctx f S h2 = (Outcome.returned (r2, none), h3))
    (hcheck2 : client.MultiCheck t env ctx f K h3 = (Outcome.returned (r3, none), h4)) :
    r1 = some (List.replicate K.length false) ∧
    r3 = some (K.map (fun k => decide (k ∈ S))) := by
  -- Create
  have e1 : stored f h1 = stored f h0 := by
    have hn := stored_newConnection env t t.maxAttempts h0 f
    rcases hnc : newConnection env t t.maxAttempts h0 with ⟨⟨c, e⟩, g⟩
    rw [hnc] at hn
    cases e with
    | some err => simp [client.Create, hnc] at hcreate
    | none =>
      cases c with
      | none => simp [client.Create, hnc] at hcreate
      | some conn =>
        simp only [client.Create, hnc, Prod.mk.injEq] at hcreate
        rw [← hcreate.2, stored_append_singleton]
        simpa [storeStep] using hn
  -- first MultiCheck
  have e2 : r1 = some (K.map (fun k => decide (k ∈ stored f h0))) ∧
      stored f h2 = stored f h0 := by
    have hn := stored_newConnection env t t.maxAttempts h1 f
    rcases hnc : newConnection env t t.maxAttempts h1 with ⟨⟨c, e⟩, g⟩
    rw [hnc] at hn
    cases e with
    | some err => simp [client.MultiCheck, hnc] at hcheck1
    | none =>
      cases c with
      | none => simp [client.MultiCheck, hnc] at hcheck1
      | some conn =>
        simp only [client.MultiCheck, hnc, hs.1, Prod.mk.injEq, Outcome.returned.injEq]
          at hcheck1
        refine ⟨?_, ?_⟩
        · rw [← hcheck1.1.1, hn, e1]
        · rw [← hcheck1.2, stored_append_singleton]
          simpa [storeStep, e1] using hn
  -- MultiSet
  have e3 : stored f h3 = stored f h0 ++ S := by
    have hn := stored_newConnection env t t.maxAttempts h2 f
    rcases hnc : newConnection env t t.maxAttempts h2 with ⟨⟨c, e⟩, g⟩
    rw [hnc] at hn
    cases e with
    | some err => simp [client.MultiSet, hnc] at hset
    | none =>
      cases c with
      | none => simp [client.MultiSet, hnc] at hset
      | some conn =>
        simp only [client.MultiSet, hnc, Prod.mk.injEq] at hset
        rw [← hset.2, stored_append_singleton]
        simp [storeStep, hn, e2.2]
  -- second MultiCheck
  have e4 : r3 = some (K.map (fun k => decide (k ∈ stored f h0 ++ S))) := by
    have hn := stored_newConnection env t t.maxAttempts h3 f
    rcases hnc : newConnection env t t.maxAttempts h3 with ⟨⟨c, e⟩, g⟩
    rw [hnc] at hn
    cases e with
    | some err => simp [client.MultiCheck, hnc] at hcheck2
    | none =>
      cases c with
      | none => simp [client.MultiCheck, hnc] at hcheck2
      | some conn =>
        simp only [client.MultiCheck, hnc, hs.1, Prod.mk.injEq, Outcome.returned.injEq]
          at hcheck2
        rw [← hcheck2.1.1, hn, e3]
  refine ⟨?_, ?_⟩
  · rw [e2.1]
    congr 1
    rw [List.eq_replicate_iff]
    refine ⟨by simp, ?_⟩
    intro b hb
    obtain ⟨k, hk, rfl⟩ := List.mem_map.mp hb
    simpa using hfresh k hk
  · rw [e4]
    congr 1
    apply List.map_congr_left
    intro k hk
    have := hfresh k hk
    simp [List.mem_append, this]

/-- C4 on the keys of TestGetSetGet: the second MultiCheck returns
true, false, true, false, true. -/
theorem set_then_check_witness :
    (some [false, false, false, false, false] : Option BoolVector) =
        some (List.replicate testKeys.length false) ∧
    (some [true, false, true, false, true] : Option BoolVector) =
        some (testKeys.map (fun k => decide (k ∈ ["test-1", "test-3", "test-5"]))) :=
  set_then_check (storeEnv id) (storeEnv_StoresExactly id) testClient Context.Background
    "test_filter" testKeys ["test-1", "test-3", "test-5"] []
    (client.Create testClient (storeEnv id) Context.Background "test_filter" []).2
    (client.MultiCheck testClient (storeEnv id) Context.Background "test_filter" testKeys
      (client.Create testClient (storeEnv id) Context.Background "test_filter" []).2).2
    (client.MultiSet testClient (storeEnv id) Context.Background "test_filter"
      ["test-1", "test-3", "test-5"]
      (client.MultiCheck testClient (storeEnv id) Context.Background "test_filter" testKeys
        (client.Create testClient (storeEnv id) Context.Background "test_filter" []).2).2).2
    (client.MultiCheck testClient (storeEnv id) Context.Background "test_filter" testKeys
      (client.MultiSet testClient (storeEnv id) Context.Background "test_filter"
        ["test-1", "test-3", "test-5"]
        (client.MultiCheck testClient (storeEnv id) Context.Background "test_filter" testKeys
          (client.Create testClient (storeEnv id) Context.Background "test_filter"
            []).2).2).2).2
    (some [false, false, false, false, false]) (some [true, true, true])
    (some [true, false, true, false, true])
    (by decide) (by decide) (by decide) (by decide) (by decide)

/-- C3 at a failing input, for any digest: with the pre-hash flag set, the direct
client hands the keys of the caller to the connection as they are in Set, Check,
MultiSet and MultiCheck, and so does the pooled client in Check, MultiSet and
MultiCheck; only Set of the pooled client hands over hashKey of the key. -/
theorem prehash_only_in_pooled_Set (digest : String → String) :
    (client.Set hashingClient (storeEnv digest) Context.Background "test_filter" "test-1"
        []).2.getLast? =
      some (Event.call ⟨⟨0⟩⟩ (ConnCall.set Context.Background "test_filter" "test-1")) ∧
    (client.Check hashingClient (storeEnv digest) Context.Background "test_filter" "test-1"
        []).2.getLast? =
      some (Event.call ⟨⟨0⟩⟩ (ConnCall.check Context.Background "test_filter" "test-1")) ∧
    (client.MultiSet hashingClient (storeEnv digest) Context.Background "test_filter"
        ["test-1", "test-3"] []).2.getLast? =
      some (Event.call ⟨⟨0⟩⟩
        (ConnCall.multiSet Context.Background "test_filter" ["test-1", "test-3"])) ∧
    (client.MultiCheck hashingClient (storeEnv digest) Context.Background "test_filter"
        ["test-1", "test-3"] []).2.getLast? =
      some (Event.call ⟨⟨0⟩⟩
        (ConnCall.multiCheck Context.Background "test_filter" ["test-1", "test-3"])) ∧
    (pooledClient.Set (readyPooled true) (storeEnv digest) Context.Background "test_filter"
        "test-1" []).2.getLast? =
      some (Event.call ⟨⟨7⟩⟩
        (ConnCall.set Context.Background "test_filter" (hashKey digest true "test-1"))) ∧
    (pooledClient.Check (readyPooled true) (storeEnv digest) Context.Background "test_filter"
        "test-1" []).2.getLast? =
      some (Event.call ⟨⟨7⟩⟩ (ConnCall.check Context.Background "test_filter" "test-1")) ∧
    (pooledClient.MultiSet (readyPooled true) (storeEnv digest) Context.Background
        "test_filter" ["test-1", "test-3"] []).2.getLast? =
      some (Event.call ⟨⟨7⟩⟩
        (ConnCall.multiSet Context.Background "test_filter" ["test-1", "test-3"])) ∧
    (pooledClient.MultiCheck (readyPooled true) (storeEnv digest) Context.Background
        "test_filter" ["test-1", "test-3"] []).2.getLast? =
      some (Event.call ⟨⟨7⟩⟩
        (ConnCall.multiCheck Context.Background "test_filter" ["test-1", "test-3"])) ∧
    hashKey digest true "test-1" = digest "test-1" :=
  ⟨rfl, rfl, rfl, rfl, rfl, rfl, rfl, rfl, rfl⟩

/-- C5 at a failing input: with the pre-hash flag set and a digest that changes the
key, Set of the pooled client hands the digest of the key to the connection and
Check hands the key itself, so that against a server storing exactly the keys it
is sent, Check after a successful Set returns false. -/
theorem pooled_set_then_check_misses (digest : String → String)
    (hd : digest "test-1" ≠ "test-1") :
    pooledClient.Set (readyPooled true) (storeEnv digest) Context.Background "test_filter"
        "test-1" [] =
      (Outcome.returned (some true, none),
       [Event.poolGet,
        Event.call ⟨⟨7⟩⟩
          (ConnCall.set Context.Background "test_filter" (digest "test-1"))]) ∧
    pooledClient.Check (readyPooled true) (storeEnv digest) Context.Background "test_filter"
        "test-1"
        [Event.poolGet,
         Event.call ⟨⟨7⟩⟩
          (ConnCall.set Context.Background "test_filter" (digest "test-1"))] =
      (Outcome.returned (some false, none),
       [Event.poolGet,
        Event.call ⟨⟨7⟩⟩
          (ConnCall.set Context.Background "test_filter" (digest "test-1")),
        Event.poolGet,
        Event.call ⟨⟨7⟩⟩ (ConnCall.check Context.Background "test_filter" "test-1")]) := by
  refine ⟨rfl, ?_⟩
  have hmem : decide ("test-1" ∈ stored "test_filter"
      ([Event.poolGet,
        Event.call ⟨⟨7⟩⟩
          (ConnCall.set Context.Background "test_filter" (digest "test-1"))]
        ++ [Event.poolGet])) = false := by
    have : stored "test_filter"
      ([Event.poolGet,
        Event.call ⟨⟨7⟩⟩
          (ConnCall.set Context.Background "test_filter" (digest "test-1"))]
        ++ [Event.poolGet]) = [digest "test-1"] := rfl
    rw [this]
    simpa using fun h => hd h.symm
  simp only [pooledClient.Check, readyPooled, readyPool, storeEnv, hmem]
  rfl

/-- C5 failing input with the sample digest. -/
theorem pooled_set_then_check_misses_witness :
    sampleDigest "test-1" ≠ "test-1" ∧
    (pooledClient.Check (readyPooled true) (storeEnv sampleDigest) Context.Background
        "test_filter" "test-1"
        (pooledClient.Set (readyPooled true) (storeEnv sampleDigest) Context.Background
          "test_filter" "test-1" []).2).1 = Outcome.returned (some false, none) := by
  have hd : sampleDigest "test-1" ≠ "test-1" := by decide
  have h := pooled_set_then_check_misses sampleDigest hd
  refine ⟨hd, ?_⟩
  rw [h.1, h.2]

end Bloomd
